import Mathlib

/-!
# Hydrogen drumkit core (`src/libs/hydrogen/src/basics/drumkit.cpp`)

A shallow embedding of `H2Core::Drumkit`: the document codec (`load_from`,
`load_file`, `save_to`, `save_file`), the sample resource manager
(`load_samples`, `unload_samples`), the package writer (`save`,
`save_samples`) and the libarchive installer (`install`).

Conventions of the embedding.

* `QString` is `String`. A C++ pointer that may be `0` is an `Option`.
* Dereferencing a null pointer and overrunning a fixed `char` buffer are
  undefined in C++; the embedding reports them as a `Fault` instead of
  inventing a result.
* The collaborators that live outside `drumkit.cpp` (`Filesystem`, `XMLDoc`
  reading and writing, the instrument list, libarchive) are either
  parameters of the embedded functions or small models written from the
  interface the specification gives for them; each such model says so.
* Calls that act on the outside world are recorded, with the value they
  returned, in a log carried next to the abstract filesystem state.
* The `INFOLOG` / `ERRORLOG` / `WARNINGLOG` diagnostics are not modelled.
-/

namespace H2Core

/-! ## Faults -/

/-- Behaviour that C++ leaves undefined and that the embedding makes visible. -/
inductive Fault where
  | nullDeref
  | bufferOverflow
  deriving DecidableEq, Repr

/-! ## Instrument aggregate (external) -/

/-- Modelled from the spec: the `Sample` class is not part of `drumkit.cpp`.
The glossary describes a sample as "an audio resource identified by file name,
loadable into and unloadable from memory"; `get_filename()` is the only
member the drumkit code reads. -/
structure Sample where
  filename : String
  loaded : Bool
  deriving DecidableEq, Repr

/-- Modelled from the spec: the `InstrumentLayer` class is not part of
`drumkit.cpp`; "each occupied layer owns one sample reference carrying at
least a file name". -/
structure InstrumentLayer where
  sample : Sample
  deriving DecidableEq, Repr

/-- Modelled from the spec: the `Instrument` class is not part of
`drumkit.cpp`; "each instrument owns up to a fixed maximum number of layer
slots (some may be empty)". Slot `n` is entry `n` of `layers`. -/
structure Instrument where
  name : String
  layers : List (Option InstrumentLayer)
  deriving DecidableEq, Repr

/-- The layer pointer `instrument->get_layer(n)`; `none` is the null pointer
of an empty slot. -/
def Instrument.get_layer (instrument : Instrument) (n : Nat) : Option InstrumentLayer :=
  instrument.layers.getD n none

/-- The instrument collection: an ordered list, `size()` its length and
`(*instruments)[i]` its `i`-th entry. -/
abbrev InstrumentList := List Instrument

/-! ## Structured documents (external) -/

/-- Modelled from the spec: the `XMLNode` / `XMLDoc` classes are not part of
`drumkit.cpp`. A node is an element (tag, attributes, text, child nodes) or a
processing instruction. -/
inductive XMLNode where
  | element (tag : String) (attrs : List (String × String)) (text : String)
      (children : List XMLNode)
  | instruction (target : String) (data : String)

/-- The child nodes of a node. -/
def XMLNode.children : XMLNode → List XMLNode
  | .element _ _ _ cs => cs
  | .instruction _ _ => []

/-- The text of a node. -/
def XMLNode.text : XMLNode → String
  | .element _ _ t _ => t
  | .instruction _ _ => ""

/-- Whether a node is an element with the given tag. -/
def XMLNode.isElementNamed (name : String) : XMLNode → Bool
  | .element tag _ _ _ => decide (tag = name)
  | .instruction _ _ => false

/-- Modelled from the spec: `appendChild`, adding a node after the existing
children. -/
def XMLNode.appendChild (node : XMLNode) (child : XMLNode) : XMLNode :=
  match node with
  | .element tag attrs t cs => .element tag attrs t (cs ++ [child])
  | .instruction target data => .instruction target data

/-- Modelled from the spec: `el.setAttribute(name, value)`. -/
def XMLNode.setAttribute (node : XMLNode) (name value : String) : XMLNode :=
  match node with
  | .element tag attrs t cs => .element tag (attrs ++ [(name, value)]) t cs
  | .instruction target data => .instruction target data

/-- Modelled from the spec: `firstChildElement(name)`, the first child that is
an element with that tag; `none` is the null node (`isNull()`). -/
def XMLNode.firstChildElement (node : XMLNode) (name : String) : Option XMLNode :=
  node.children.find? (XMLNode.isElementNamed name)

/-- Modelled from the spec: `Node.readString(key, default) -> string`, the
text of the child named `key`, or `default` when there is no such child. The
C++ declaration (absent from the sources at hand) has two further Boolean
parameters; `drumkit.cpp` passes them, as `false, false`, only when it reads
`name`. The interface in the specification gives them no part in the returned
string, so they are carried and not inspected; `none` stands for a call that
leaves them at their declared defaults. -/
def XMLNode.read_string (node : XMLNode) (key : String) (default_value : String)
    (_flags : Option (Bool × Bool)) : String :=
  match node.firstChildElement key with
  | some child => child.text
  | none => default_value

/-- Modelled from the spec: `Node.writeString(key, value)`, appending a child
element `key` whose text is `value`. -/
def XMLNode.write_string (node : XMLNode) (key : String) (value : String) : XMLNode :=
  node.appendChild (.element key [] value [])

/-- Modelled from the spec: an `XMLDoc` is the list of its top-level nodes. -/
structure XMLDoc where
  nodes : List XMLNode

/-- Modelled from the spec: `Document.firstChild(name) -> Node`. -/
def XMLDoc.firstChildElement (doc : XMLDoc) (name : String) : Option XMLNode :=
  doc.nodes.find? (XMLNode.isElementNamed name)

/-- Modelled from the spec: `doc.appendChild(node)`. -/
def XMLDoc.appendChild (doc : XMLDoc) (node : XMLNode) : XMLDoc :=
  { nodes := doc.nodes ++ [node] }

/-- The instrument collection's own document codec, `InstrumentList::load_from`
and `InstrumentList::save_to`; both live outside `drumkit.cpp` and are
parameters here. -/
structure InstrumentListCodec where
  load_from : XMLNode → InstrumentList
  save_to : InstrumentList → XMLNode → XMLNode

/-! ## Kit metadata model -/

/-- The fields of `H2Core::Drumkit` (`__path`, `__name`, `__author`, `__info`,
`__license`, `__samples_loaded`, `__instruments`). -/
structure Drumkit where
  path : String
  name : String
  author : String
  info : String
  license : String
  samples_loaded : Bool
  instruments : Option InstrumentList

/-- The constructor `Drumkit::Drumkit()`: `__samples_loaded(false)`,
`__instruments( 0 )`, empty strings. -/
def Drumkit.new : Drumkit :=
  { path := "", name := "", author := "", info := "", license := "",
    samples_loaded := false, instruments := none }

/-- The setter `set_path`. -/
def Drumkit.set_path (drumkit : Drumkit) (dk_path : String) : Drumkit :=
  { drumkit with path := dk_path }

/-- The setter `set_instruments`, given a non-null collection. -/
def Drumkit.set_instruments (drumkit : Drumkit) (instruments : InstrumentList) : Drumkit :=
  { drumkit with instruments := some instruments }

/-! ## Document codec adapter -/

/-- The decoder `Drumkit::load_from` (lines 85-105); `none` is the null
pointer returned when the name is empty. -/
def Drumkit.load_from (codec : InstrumentListCodec) (node : XMLNode) : Option Drumkit :=
  let drumkit_name := node.read_string "name" "" (some (false, false))
  if drumkit_name.isEmpty then
    none
  else
    let drumkit := Drumkit.new
    let drumkit := { drumkit with name := drumkit_name }
    let drumkit := { drumkit with author := node.read_string "author" "undefined author" none }
    let drumkit := { drumkit with info := node.read_string "info" "defaultInfo" none }
    let drumkit := { drumkit with license := node.read_string "license" "undefined license" none }
    let drumkit := { drumkit with samples_loaded := false }
    match node.firstChildElement "instrumentList" with
    | none => some (drumkit.set_instruments [])
    | some instruments_node => some (drumkit.set_instruments (codec.load_from instruments_node))

/-- The file-level loader `Drumkit::load_file` (lines 72-83). `read` stands
for `XMLDoc::read(dk_path, Filesystem::drumkit_xsd())`: the document found and
validated at a path, or `none` when reading fails. The call
`drumkit->set_path( dk_path )` dereferences whatever `load_from` returned. -/
def Drumkit.load_file (codec : InstrumentListCodec) (read : String → Option XMLDoc)
    (dk_path : String) : Except Fault (Option Drumkit) :=
  match read dk_path with
  | none => .ok none
  | some doc =>
    match doc.firstChildElement "drumkit_info" with
    | none => .ok none
    | some root =>
      match Drumkit.load_from codec root with
      | none => .error Fault.nullDeref
      | some drumkit => .ok (some (drumkit.set_path dk_path))

/-- The encoder `Drumkit::save_to` (lines 176-182); `__instruments->save_to`
dereferences the collection pointer. -/
def Drumkit.save_to (codec : InstrumentListCodec) (drumkit : Drumkit) (node : XMLNode) :
    Except Fault XMLNode :=
  let node := node.write_string "name" drumkit.name
  let node := node.write_string "author" drumkit.author
  let node := node.write_string "info" drumkit.info
  let node := node.write_string "license" drumkit.license
  match drumkit.instruments with
  | none => .error Fault.nullDeref
  | some instruments => .ok (codec.save_to instruments node)

/-! ## Strings -/

/-- Scan for `QString::lastIndexOf`: `i` is the index of the next character,
`found` the index of the last match seen so far. -/
def lastIndexOfFrom (c : Char) : List Char → Int → Int → Int
  | [], _, found => found
  | x :: xs, i, found => lastIndexOfFrom c xs (i + 1) (if x = c then i else found)

/-- Qt's `QString::lastIndexOf` for a one-character needle: the index of its
last occurrence, `-1` when there is none. -/
def lastIndexOf (s : String) (c : Char) : Int :=
  lastIndexOfFrom c s.data 0 (-1)

/-- Qt's `QString::left(n)`: the `n` leftmost characters; "the entire string
is returned if n is greater than or equal to size(), or less than zero". -/
def left (s : String) (n : Int) : String :=
  if n < 0 ∨ (s.length : Int) ≤ n then s else String.mk (s.data.take n.toNat)

/-- The expression `__path.left( __path.lastIndexOf("/") )` of `load_samples`
and `save_samples`: the directory part of the kit's path. -/
def dirPart (path : String) : String :=
  left path (lastIndexOf path '/')

/-! ## The outside world -/

/-- One call that acts on the outside world, with the value it returned. -/
inductive Call where
  | mkdir (path : String) (ok : Bool)
  | file_copy (src : String) (dst : String) (ok : Bool)
  | doc_write (path : String) (doc : XMLDoc) (ok : Bool)
  | load_samples (dir : String) (ok : Bool)
  | unload_samples (ok : Bool)

/-- The external collaborators of `drumkit.cpp` over an abstract filesystem
state `σ`: the `Filesystem` helpers, `XMLDoc::write`, the instrument list's
codec and bulk sample operations, and the constants `MAX_LAYERS`,
`XMLNS_BASE`, `XMLNS_XSI` that other headers define. -/
structure Env (σ : Type) where
  usr_drumkits_dir : String
  drumkit_file : String → String
  drumkit_exists : σ → String → Bool
  file_exists : σ → String → Bool → Bool
  mkdir : σ → String → Bool × σ
  file_copy : σ → String → String → Bool × σ
  doc_write : σ → String → XMLDoc → Bool × σ
  codec : InstrumentListCodec
  il_load_samples : σ → InstrumentList → String → Bool × InstrumentList
  il_unload_samples : InstrumentList → Bool × InstrumentList
  MAX_LAYERS : Nat
  XMLNS_BASE : String
  XMLNS_XSI : String

/-- The filesystem state together with the log of the calls made so far. -/
structure World (σ : Type) where
  fs : σ
  log : List Call

/-- The call `Filesystem::mkdir( path )`, logged. -/
def World.mkdir {σ : Type} (env : Env σ) (w : World σ) (path : String) : Bool × World σ :=
  let r := env.mkdir w.fs path
  (r.1, { fs := r.2, log := w.log ++ [Call.mkdir path r.1] })

/-- The call `Filesystem::file_copy( src, dst )`, logged. -/
def World.file_copy {σ : Type} (env : Env σ) (w : World σ) (src dst : String) :
    Bool × World σ :=
  let r := env.file_copy w.fs src dst
  (r.1, { fs := r.2, log := w.log ++ [Call.file_copy src dst r.1] })

/-- The call `doc.write( path )`, logged. -/
def World.doc_write {σ : Type} (env : Env σ) (w : World σ) (path : String) (doc : XMLDoc) :
    Bool × World σ :=
  let r := env.doc_write w.fs path doc
  (r.1, { fs := r.2, log := w.log ++ [Call.doc_write path doc r.1] })

/-! ## Sample resource manager -/

/-- The method `Drumkit::load_samples` (lines 107-115). The result is the
returned value, the drumkit after the call and the world after the call. -/
def Drumkit.load_samples {σ : Type} (env : Env σ) (self : Drumkit) (w : World σ) :
    Except Fault Bool × Drumkit × World σ :=
  if self.samples_loaded then (.ok true, self, w)
  else
    match self.instruments with
    | none => (.error Fault.nullDeref, self, w)
    | some instruments =>
      let dir := left self.path (lastIndexOf self.path '/')
      let r := env.il_load_samples w.fs instruments dir
      let w1 : World σ := { w with log := w.log ++ [Call.load_samples dir r.1] }
      let self1 := { self with instruments := some r.2 }
      if r.1 then (.ok true, { self1 with samples_loaded := true }, w1)
      else (.ok false, self1, w1)

/-- The method `Drumkit::unload_samples` (lines 117-125). -/
def Drumkit.unload_samples {σ : Type} (env : Env σ) (self : Drumkit) (w : World σ) :
    Except Fault Bool × Drumkit × World σ :=
  if !self.samples_loaded then (.ok true, self, w)
  else
    match self.instruments with
    | none => (.error Fault.nullDeref, self, w)
    | some instruments =>
      let r := env.il_unload_samples instruments
      let w1 : World σ := { w with log := w.log ++ [Call.unload_samples r.1] }
      let self1 := { self with instruments := some r.2 }
      if r.1 then (.ok true, { self1 with samples_loaded := false }, w1)
      else (.ok false, self1, w1)

/-! ## Filesystem package writer -/

/-- The method `Drumkit::save_file` (lines 158-174). -/
def Drumkit.save_file {σ : Type} (env : Env σ) (self : Drumkit) (dk_path : String)
    (overwrite : Bool) (w : World σ) : Except Fault Bool × World σ :=
  if env.file_exists w.fs dk_path true && !overwrite then (.ok false, w)
  else
    let doc : XMLDoc := { nodes := [] }
    let header := XMLNode.instruction "xml" "version=\"1.0\" encoding=\"UTF-8\""
    let doc := doc.appendChild header
    let root := XMLNode.element "drumkit_info" [] "" []
    let root := root.setAttribute "xmlns" (env.XMLNS_BASE ++ "/drumkit")
    let root := root.setAttribute "xmlns:xsi" env.XMLNS_XSI
    match self.save_to env.codec root with
    | .error f => (.error f, w)
    | .ok root =>
      let doc := doc.appendChild root
      let r := w.doc_write env dk_path doc
      (.ok r.1, r.2)

/-- The inner loop of `save_samples`, `for ( int n = 0; n < MAX_LAYERS; n++ )`,
entered at layer `n` with `remaining = MAX_LAYERS - n` iterations to go. The
Boolean is `false` when the loop left through `return false`. -/
def save_samples_layers {σ : Type} (env : Env σ) (self : Drumkit) (dk_dir : String)
    (instrument : Instrument) : Nat → Nat → World σ → Bool × World σ
  | 0, _, w => (true, w)
  | remaining + 1, n, w =>
    match instrument.get_layer n with
    | none => save_samples_layers env self dk_dir instrument remaining (n + 1) w
    | some layer =>
      let src := left self.path (lastIndexOf self.path '/') ++ "/" ++ layer.sample.filename
      let dst := dk_dir ++ "/" ++ layer.sample.filename
      let r := w.file_copy env src dst
      if !r.1 then (false, r.2)
      else save_samples_layers env self dk_dir instrument remaining (n + 1) r.2

/-- The outer loop of `save_samples`, `for( int i=0; i<instruments->size(); i++)`,
over the instruments not yet visited. -/
def save_samples_instruments {σ : Type} (env : Env σ) (self : Drumkit) (dk_dir : String) :
    List Instrument → World σ → Bool × World σ
  | [], w => (true, w)
  | instrument :: rest, w =>
    let r := save_samples_layers env self dk_dir instrument env.MAX_LAYERS 0 w
    if !r.1 then (false, r.2)
    else save_samples_instruments env self dk_dir rest r.2

/-- The method `Drumkit::save_samples` (lines 184-205); `overwrite` is
received and never read. -/
def Drumkit.save_samples {σ : Type} (env : Env σ) (self : Drumkit) (dk_dir : String)
    (_overwrite : Bool) (w : World σ) : Except Fault Bool × World σ :=
  let m := w.mkdir env dk_dir
  if !m.1 then (.ok false, m.2)
  else
    match self.instruments with
    | none => (.error Fault.nullDeref, m.2)
    | some instruments =>
      let r := save_samples_instruments env self dk_dir instruments m.2
      (.ok r.1, r.2)

/-- The method `Drumkit::save( bool overwrite )` (lines 140-156). -/
def Drumkit.save {σ : Type} (env : Env σ) (self : Drumkit) (overwrite : Bool) (w : World σ) :
    Except Fault Bool × World σ :=
  if env.drumkit_exists w.fs self.name && !overwrite then (.ok false, w)
  else
    let dk_dir := env.usr_drumkits_dir ++ "/" ++ self.name
    let m := w.mkdir env dk_dir
    if !m.1 then (.ok false, m.2)
    else
      let r := self.save_file env (env.drumkit_file dk_dir) overwrite m.2
      match r.1 with
      | .error f => (.error f, r.2)
      | .ok ret =>
        if ret then self.save_samples env dk_dir overwrite r.2
        else (.ok ret, r.2)

/-! ## Archive installer (libarchive build) -/

/-- The libarchive status `ARCHIVE_EOF` of `<archive.h>`. -/
def ARCHIVE_EOF : Int := 1

/-- The libarchive status `ARCHIVE_OK`. -/
def ARCHIVE_OK : Int := 0

/-- The libarchive status `ARCHIVE_WARN`. -/
def ARCHIVE_WARN : Int := -20

/-- What libarchive reports for one entry of the archive being read: the
status of `archive_read_next_header`, the stored pathname
(`archive_entry_pathname`) and the status `archive_read_extract` returns when
the entry is extracted. -/
structure ArchiveEntry where
  header : Int
  pathname : String
  extract : Int

/-- What libarchive reports for an archive file: the status of
`archive_read_open_file` and the entries in stored order; after the last one
`archive_read_next_header` returns `ARCHIVE_EOF`. -/
structure Archive where
  open_status : Int
  entries : List ArchiveEntry

/-- The call `strcpy( newpath, np.toLocal8Bit() )` into `char newpath[1024]`:
the bytes and the terminating zero must fit. The local 8-bit encoding is
taken to be UTF-8. -/
def strcpy (capacity : Nat) (s : String) : Except Fault String :=
  if s.utf8ByteSize < capacity then .ok s else .error Fault.bufferOverflow

/-- The `while` loop of `Drumkit::install` (lines 273-290) over the entries
not yet read. It yields the fault met, if any, and the pathnames handed to
`archive_read_extract`, in order. -/
def install_loop (dk_dir : String) : List ArchiveEntry → Option Fault × List String
  | [] => (none, [])
  | entry :: rest =>
    if entry.header = ARCHIVE_EOF then (none, [])
    else if entry.header ≠ ARCHIVE_OK then (none, [])
    else
      let np := dk_dir ++ entry.pathname
      match strcpy 1024 np with
      | .error f => (some f, [])
      | .ok newpath =>
        if entry.extract = ARCHIVE_WARN then
          let r := install_loop dk_dir rest
          (r.1, newpath :: r.2)
        else if entry.extract ≠ ARCHIVE_OK then (none, [newpath])
        else
          let r := install_loop dk_dir rest
          (r.1, newpath :: r.2)

/-- The observable outcome of one run of `install`: the returned value, the
pathnames handed to the extractor and whether the archive handle was closed. -/
structure InstallRun where
  result : Except Fault Bool
  extracted : List String
  closed : Bool

/-- The function `Drumkit::install` of the libarchive build (lines 253-294);
the first argument is `Filesystem::usr_drumkits_dir()`. -/
def Drumkit.install (usr_drumkits_dir : String) (archive : Archive) : InstallRun :=
  if archive.open_status ≠ 0 then
    { result := .ok false, extracted := [], closed := true }
  else
    let dk_dir := usr_drumkits_dir ++ "/"
    let r := install_loop dk_dir archive.entries
    match r.1 with
    | some f => { result := .error f, extracted := r.2, closed := false }
    | none => { result := .ok true, extracted := r.2, closed := true }

/-! ## Specification-side notions -/

/-- The components of a path: the pieces between its `/` characters. -/
def splitSlash : List Char → List (List Char)
  | [] => [[]]
  | c :: cs =>
    if c = '/' then [] :: splitSlash cs
    else
      match splitSlash cs with
      | [] => [[c]]
      | h :: t => (c :: h) :: t

/-- Resolving one component against the directories entered so far (innermost
first): an empty component and `.` stay, `..` leaves the innermost directory
(and stays at the top when there is none), a name enters a directory. -/
def resolveStep (stack : List (List Char)) (comp : List Char) : List (List Char) :=
  if comp = [] ∨ comp = ['.'] then stack
  else if comp = ['.', '.'] then stack.tail
  else comp :: stack

/-- The directories a path names once `.` and `..` are resolved, outermost
first. -/
def resolvePath (p : String) : List (List Char) :=
  ((splitSlash p.data).foldl resolveStep []).reverse

/-- The path `p`, once resolved, lies under the resolved `root`. -/
def liesUnder (root p : String) : Prop :=
  resolvePath root <+: resolvePath p

/-- Whether a run of components, read at depth `d` below its starting
directory, never climbs above that starting directory. -/
def staysInsideFrom : Nat → List (List Char) → Bool
  | _, [] => true
  | d, comp :: rest =>
    if comp = [] ∨ comp = ['.'] then staysInsideFrom d rest
    else if comp = ['.', '.'] then
      match d with
      | 0 => false
      | d + 1 => staysInsideFrom d rest
    else staysInsideFrom (d + 1) rest

/-- Whether a relative pathname never climbs above the directory it starts
in: no leading part of it has more `..` components than names. -/
def staysInside (p : String) : Bool :=
  staysInsideFrom 0 (splitSlash p.data)

/-- The occupied layers of an instrument, slots `0 .. MAX_LAYERS-1` in order. -/
def occupiedLayers (maxLayers : Nat) (instrument : Instrument) : List InstrumentLayer :=
  (List.range maxLayers).filterMap instrument.get_layer

/-- The copies the claim lists for `save_samples`: instrument order, then
layer order, each from `<directory part of __path>/<filename>` to
`<dk_dir>/<filename>`. -/
def sampleCopies (maxLayers : Nat) (path dk_dir : String) (instruments : InstrumentList) :
    List (String × String) :=
  instruments.flatMap (fun instrument =>
    (occupiedLayers maxLayers instrument).map (fun layer =>
      (dirPart path ++ "/" ++ layer.sample.filename, dk_dir ++ "/" ++ layer.sample.filename)))

/-- Performing every copy of a list, in order, whatever each returns. -/
def runCopies {σ : Type} (env : Env σ) : List (String × String) → World σ → World σ
  | [], w => w
  | c :: cs, w => runCopies env cs (w.file_copy env c.1 c.2).2

/-- Whether every copy of a list succeeds when they are performed in order. -/
def allCopiesSucceed {σ : Type} (env : Env σ) : List (String × String) → World σ → Bool
  | [], _ => true
  | c :: cs, w => (w.file_copy env c.1 c.2).1 && allCopiesSucceed env cs (w.file_copy env c.1 c.2).2

/-- Performing the copies of a list in order up to the first one that fails. -/
def attemptCopies {σ : Type} (env : Env σ) : List (String × String) → World σ → Bool × World σ
  | [], w => (true, w)
  | c :: cs, w =>
    let r := w.file_copy env c.1 c.2
    if !r.1 then (false, r.2) else attemptCopies env cs r.2

/-- The number of bulk sample loads recorded in a log. -/
def countLoads : List Call → Nat
  | [] => 0
  | Call.load_samples _ _ :: rest => countLoads rest + 1
  | _ :: rest => countLoads rest

/-- The number of bulk sample unloads recorded in a log. -/
def countUnloads : List Call → Nat
  | [] => 0
  | Call.unload_samples _ :: rest => countUnloads rest + 1
  | _ :: rest => countUnloads rest

/-! ## A small concrete environment, for evaluating the embedding -/

/-- An instrument-list codec for examples: a layer slot becomes a `layer`
element holding the sample file name, or an `empty` element. -/
def exampleCodec : InstrumentListCodec where
  load_from := fun node =>
    node.children.map (fun i =>
      { name := i.text,
        layers := i.children.map (fun l =>
          if l.isElementNamed "layer" then
            some { sample := { filename := l.text, loaded := false } }
          else none) })
  save_to := fun instruments node =>
    node.appendChild (.element "instrumentList" [] ""
      (instruments.map (fun i =>
        .element "instrument" [] i.name
          (i.layers.map (fun l =>
            match l with
            | some layer => .element "layer" [] layer.sample.filename []
            | none => .element "empty" [] "" [])))))

/-- Marking every sample of a collection as loaded or unloaded. -/
def markSamples (loaded : Bool) (instruments : InstrumentList) : InstrumentList :=
  instruments.map (fun i =>
    { i with layers := i.layers.map (fun l =>
        l.map (fun layer => { sample := { layer.sample with loaded := loaded } })) })

/-- An environment for examples. The filesystem state is the list of paths
that exist; a copy succeeds when its source exists, a bulk load when every
sample file exists under the given directory. -/
def exampleEnv : Env (List String) where
  usr_drumkits_dir := "/home/u/.hydrogen/data/drumkits"
  drumkit_file := fun dk_dir => dk_dir ++ "/drumkit.xml"
  drumkit_exists := fun fs name =>
    decide (("/home/u/.hydrogen/data/drumkits/" ++ name ++ "/drumkit.xml") ∈ fs)
  file_exists := fun fs path _ => decide (path ∈ fs)
  mkdir := fun fs path => (true, if path ∈ fs then fs else fs ++ [path])
  file_copy := fun fs src dst => if src ∈ fs then (true, fs ++ [dst]) else (false, fs)
  doc_write := fun fs path _ => (true, fs ++ [path])
  codec := exampleCodec
  il_load_samples := fun fs instruments dir =>
    if instruments.all (fun i => i.layers.all (fun l =>
        match l with
        | some layer => decide ((dir ++ "/" ++ layer.sample.filename) ∈ fs)
        | none => true))
    then (true, markSamples true instruments)
    else (false, instruments)
  il_unload_samples := fun instruments => (true, markSamples false instruments)
  MAX_LAYERS := 16
  XMLNS_BASE := "http://www.hydrogen-music.org"
  XMLNS_XSI := "http://www.w3.org/2001/XMLSchema-instance"

/-- An example kit: one instrument, one occupied layer referencing `kick.wav`. -/
def exampleKit : Drumkit :=
  { path := "/usr/share/hydrogen/data/drumkits/Acoustic/drumkit.xml",
    name := "Acoustic", author := "undefined author", info := "defaultInfo",
    license := "undefined license", samples_loaded := false,
    instruments := some [
      { name := "Kick",
        layers := [some { sample := { filename := "kick.wav", loaded := false } }] }] }

/-- A document whose `drumkit_info` root has a `name` child with empty text. -/
def unnamedDoc : XMLDoc :=
  { nodes := [
      .instruction "xml" "version=\"1.0\" encoding=\"UTF-8\"",
      .element "drumkit_info" [] "" [
        .element "name" [] "" [],
        .element "author" [] "somebody" [],
        .element "instrumentList" [] "" []]] }

/-- A kit as the constructor leaves it, given an empty instrument collection:
its name is the empty string. -/
def unnamedKit : Drumkit :=
  Drumkit.new.set_instruments []

/-- The example environment with a bulk unload that always fails. -/
def stuckUnloadEnv : Env (List String) :=
  { exampleEnv with il_unload_samples := fun instruments => (false, instruments) }

/-! ## Theorems: document codec -/

theorem read_string_of_none (node : XMLNode) (key d : String) (fl : Option (Bool × Bool))
    (h : node.firstChildElement key = none) : node.read_string key d fl = d := by
  simp [XMLNode.read_string, h]

theorem read_string_of_some (node c : XMLNode) (key d : String) (fl : Option (Bool × Bool))
    (h : node.firstChildElement key = some c) : node.read_string key d fl = c.text := by
  simp [XMLNode.read_string, h]

theorem load_from_of_empty (codec : InstrumentListCodec) (node : XMLNode)
    (h : node.read_string "name" "" (some (false, false)) = "") :
    Drumkit.load_from codec node = none := by
  simp [Drumkit.load_from, h, String.isEmpty_iff]

theorem load_from_of_name (codec : InstrumentListCodec) (node : XMLNode)
    (h : node.read_string "name" "" (some (false, false)) ≠ "") :
    Drumkit.load_from codec node = some
      { path := "",
        name := node.read_string "name" "" (some (false, false)),
        author := node.read_string "author" "undefined author" none,
        info := node.read_string "info" "defaultInfo" none,
        license := node.read_string "license" "undefined license" none,
        samples_loaded := false,
        instruments := some
          (match node.firstChildElement "instrumentList" with
           | none => []
           | some instruments_node => codec.load_from instruments_node) } := by
  have h1 : (node.read_string "name" "" (some (false, false))).isEmpty = false := by
    cases hb : (node.read_string "name" "" (some (false, false))).isEmpty
    · rfl
    · exact absurd ((String.isEmpty_iff _).1 hb) h
  unfold Drumkit.load_from
  simp only [h1]
  cases node.firstChildElement "instrumentList" <;>
    simp [Drumkit.new, Drumkit.set_instruments]

/-- C2: a node whose `name` child is absent, or present with empty text, makes
`load_from` return the null pointer (no drumkit); a node whose `name` child
has non-empty text makes it return a drumkit carrying that text as its name. -/
theorem load_from_required_name (codec : InstrumentListCodec) (node : XMLNode) :
    ((node.firstChildElement "name" = none ∨
        ∃ c, node.firstChildElement "name" = some c ∧ c.text = "") →
      Drumkit.load_from codec node = none) ∧
    (∀ c, node.firstChildElement "name" = some c → c.text ≠ "" →
      ∃ drumkit, Drumkit.load_from codec node = some drumkit ∧ drumkit.name = c.text) := by
  constructor
  · rintro (h | ⟨c, hc, ht⟩)
    · exact load_from_of_empty codec node (read_string_of_none node _ _ _ h)
    · exact load_from_of_empty codec node
        ((read_string_of_some node c _ _ _ hc).trans ht)
  · intro c hc ht
    have hr := read_string_of_some node c "name" "" (some (false, false)) hc
    have hne : node.read_string "name" "" (some (false, false)) ≠ "" := by
      rw [hr]; exact ht
    exact ⟨_, load_from_of_name codec node hne, hr⟩

/-- C2, evaluated: the document with an empty `name` decodes to nothing, and a
root with the name `Acoustic` decodes to a kit of that name. -/
theorem load_from_required_name_witness :
    Drumkit.load_from exampleCodec
        (.element "drumkit_info" [] "" [.element "name" [] "" []]) = none ∧
    ∃ drumkit, Drumkit.load_from exampleCodec
        (.element "drumkit_info" [] "" [.element "name" [] "Acoustic" []]) = some drumkit ∧
      drumkit.name = "Acoustic" :=
  ⟨(load_from_required_name exampleCodec
      (.element "drumkit_info" [] "" [.element "name" [] "" []])).1
      (Or.inr ⟨.element "name" [] "" [], rfl, rfl⟩),
   (load_from_required_name exampleCodec
      (.element "drumkit_info" [] "" [.element "name" [] "Acoustic" []])).2
      (.element "name" [] "Acoustic" []) rfl (by decide)⟩

/-- C10: for a node whose `name` has non-empty text, `load_from` returns a
drumkit whose author, info and license are the node's, or the literals
"undefined author", "defaultInfo", "undefined license" when the node has no
such child; `samples_loaded` is false; and without an `instrumentList` child
the instrument collection is present and empty. -/
theorem load_from_defaults (codec : InstrumentListCodec) (node c : XMLNode)
    (hc : node.firstChildElement "name" = some c) (ht : c.text ≠ "") :
    ∃ drumkit, Drumkit.load_from codec node = some drumkit ∧
      (node.firstChildElement "author" = none → drumkit.author = "undefined author") ∧
      (∀ a, node.firstChildElement "author" = some a → drumkit.author = a.text) ∧
      (node.firstChildElement "info" = none → drumkit.info = "defaultInfo") ∧
      (∀ a, node.firstChildElement "info" = some a → drumkit.info = a.text) ∧
      (node.firstChildElement "license" = none → drumkit.license = "undefined license") ∧
      (∀ a, node.firstChildElement "license" = some a → drumkit.license = a.text) ∧
      drumkit.samples_loaded = false ∧
      (node.firstChildElement "instrumentList" = none → drumkit.instruments = some []) := by
  have hr := read_string_of_some node c "name" "" (some (false, false)) hc
  have hne : node.read_string "name" "" (some (false, false)) ≠ "" := by
    rw [hr]; exact ht
  refine ⟨_, load_from_of_name codec node hne, ?_, ?_, ?_, ?_, ?_, ?_, rfl, ?_⟩
  · intro h; exact read_string_of_none node "author" "undefined author" none h
  · intro a h; exact read_string_of_some node a "author" "undefined author" none h
  · intro h; exact read_string_of_none node "info" "defaultInfo" none h
  · intro a h; exact read_string_of_some node a "info" "defaultInfo" none h
  · intro h; exact read_string_of_none node "license" "undefined license" none h
  · intro a h; exact read_string_of_some node a "license" "undefined license" none h
  · intro h; simp [h]

/-- C10, evaluated on a root that has a name and an `info` child only. -/
theorem load_from_defaults_witness :
    ∃ drumkit, Drumkit.load_from exampleCodec
        (.element "drumkit_info" [] ""
          [.element "name" [] "Acoustic" [], .element "info" [] "dry" []]) = some drumkit ∧
      drumkit.author = "undefined author" ∧ drumkit.info = "dry" ∧
      drumkit.license = "undefined license" ∧ drumkit.samples_loaded = false ∧
      drumkit.instruments = some [] := by
  obtain ⟨drumkit, h, ha, _, _, hi, hl, _, hs, hn⟩ :=
    load_from_defaults exampleCodec
      (.element "drumkit_info" [] ""
        [.element "name" [] "Acoustic" [], .element "info" [] "dry" []])
      (.element "name" [] "Acoustic" []) rfl (by decide)
  exact ⟨drumkit, h, ha rfl, hi (.element "info" [] "dry" []) rfl, hl rfl, hs, hn rfl⟩

/-- C3 (the code departs from the claim): a document that is read
successfully and has a `drumkit_info` root with an empty `name` makes
`load_from` return the null pointer, and `load_file` then dereferences it in
`drumkit->set_path( dk_path )` instead of returning failure. -/
theorem load_file_unnamed_null_deref :
    unnamedDoc.firstChildElement "drumkit_info" =
      some (.element "drumkit_info" [] "" [
        .element "name" [] "" [],
        .element "author" [] "somebody" [],
        .element "instrumentList" [] "" []]) ∧
    Drumkit.load_from exampleCodec (.element "drumkit_info" [] "" [
        .element "name" [] "" [],
        .element "author" [] "somebody" [],
        .element "instrumentList" [] "" []]) = none ∧
    Drumkit.load_file exampleCodec (fun _ => some unnamedDoc) "/kits/k/drumkit.xml" =
      .error Fault.nullDeref :=
  ⟨rfl, rfl, rfl⟩

theorem isElementNamed_element (name tag : String) (attrs : List (String × String))
    (t : String) (cs : List XMLNode) :
    XMLNode.isElementNamed name (.element tag attrs t cs) = decide (tag = name) := rfl

/-- Writing the four strings and then appending one child leaves the four
strings readable and makes the appended child the first `instrumentList`. -/
theorem read_after_writes (tag : String) (attrs : List (String × String)) (t : String)
    (n a i l : String) (c : XMLNode) (hc : c.isElementNamed "instrumentList" = true)
    (d : String) (fl : Option (Bool × Bool)) :
    let node := (((((XMLNode.element tag attrs t []).write_string "name" n).write_string
      "author" a).write_string "info" i).write_string "license" l).appendChild c
    node.read_string "name" d fl = n ∧ node.read_string "author" d fl = a ∧
    node.read_string "info" d fl = i ∧ node.read_string "license" d fl = l ∧
    node.firstChildElement "instrumentList" = some c := by
  simp [XMLNode.write_string, XMLNode.appendChild, XMLNode.read_string,
    XMLNode.firstChildElement, XMLNode.children, isElementNamed_element, XMLNode.text,
    List.find?, hc]

/-- C4 (as amended): for a drumkit that holds an instrument collection,
`save_to` writes it into a fresh element, provided the instrument-list codec
appends one `instrumentList` child that it decodes back to the collection.
When the drumkit's name is non-empty, decoding that element with `load_from`
yields a drumkit with the same name, author, info, license and instrument
collection; when the name is empty, `load_from` returns the null pointer for
that element. -/
theorem save_to_load_from_round_trip (codec : InstrumentListCodec) (m : Drumkit)
    (il : InstrumentList) (tag : String) (attrs : List (String × String))
    (hil : m.instruments = some il)
    (hcodec : ∀ n : XMLNode, ∃ c, codec.save_to il n = n.appendChild c ∧
      c.isElementNamed "instrumentList" = true ∧ codec.load_from c = il) :
    ∃ node, m.save_to codec (.element tag attrs "" []) = .ok node ∧
      (m.name ≠ "" →
        ∃ drumkit, Drumkit.load_from codec node = some drumkit ∧
          drumkit.name = m.name ∧ drumkit.author = m.author ∧ drumkit.info = m.info ∧
          drumkit.license = m.license ∧ drumkit.instruments = some il) ∧
      (m.name = "" → Drumkit.load_from codec node = none) := by
  obtain ⟨c, hsave, hc, hload⟩ := hcodec
    ((((XMLNode.element tag attrs "" []).write_string "name" m.name).write_string
      "author" m.author).write_string "info" m.info |>.write_string "license" m.license)
  have hr := fun d fl => read_after_writes tag attrs "" m.name m.author m.info m.license c hc d fl
  simp only at hr
  refine ⟨((((XMLNode.element tag attrs "" []).write_string "name" m.name).write_string
      "author" m.author).write_string "info" m.info |>.write_string "license"
      m.license).appendChild c, ?_, ?_, ?_⟩
  · simp only [Drumkit.save_to, hil, hsave]
  · intro hname
    have hnm : XMLNode.read_string ((((((XMLNode.element tag attrs "" []).write_string "name"
        m.name).write_string "author" m.author).write_string "info" m.info).write_string
        "license" m.license).appendChild c) "name" "" (some (false, false)) ≠ "" := by
      rw [(hr _ _).1]; exact hname
    refine ⟨_, load_from_of_name codec _ hnm, ?_, ?_, ?_, ?_, ?_⟩
    · exact (hr "" (some (false, false))).1
    · exact (hr "undefined author" none).2.1
    · exact (hr "defaultInfo" none).2.2.1
    · exact (hr "undefined license" none).2.2.2.1
    · simp only [(hr "" none).2.2.2.2, hload]
  · intro hname
    exact load_from_of_empty codec _ (((hr "" (some (false, false))).1).trans hname)

/-- C4 as amended, evaluated: the example kit survives the round trip, and the
kit with the empty name is written and then decoded to the null pointer. -/
theorem save_to_load_from_round_trip_witness :
    (∃ node drumkit, exampleKit.save_to exampleCodec (.element "drumkit_info" [] "" []) =
        .ok node ∧
      Drumkit.load_from exampleCodec node = some drumkit ∧
      drumkit.name = "Acoustic" ∧ drumkit.author = "undefined author" ∧
      drumkit.info = "defaultInfo" ∧ drumkit.license = "undefined license" ∧
      drumkit.instruments = some [
        { name := "Kick",
          layers := [some { sample := { filename := "kick.wav", loaded := false } }] }]) ∧
    (∃ node, unnamedKit.save_to exampleCodec (.element "drumkit_info" [] "" []) = .ok node ∧
      Drumkit.load_from exampleCodec node = none) := by
  constructor
  · obtain ⟨node, hs, hgood, _⟩ :=
      save_to_load_from_round_trip exampleCodec exampleKit _ "drumkit_info" [] rfl
        (fun n => ⟨_, rfl, rfl, rfl⟩)
    obtain ⟨drumkit, hd⟩ := hgood (by decide)
    exact ⟨node, drumkit, hs, hd⟩
  · obtain ⟨node, hs, _, hbad⟩ :=
      save_to_load_from_round_trip exampleCodec unnamedKit _ "drumkit_info" [] rfl
        (fun n => ⟨_, rfl, rfl, rfl⟩)
    exact ⟨node, hs, hbad rfl⟩

/-- C4 (the claim as stated fails): the kit the constructor builds, given an
empty instrument collection, has an empty name; `save_to` writes it into a
fresh element and `load_from` returns the null pointer for that element. -/
theorem save_to_load_from_unnamed :
    unnamedKit.save_to exampleCodec (.element "drumkit_info" [] "" []) =
      .ok (.element "drumkit_info" [] "" [
        .element "name" [] "" [], .element "author" [] "" [],
        .element "info" [] "" [], .element "license" [] "" [],
        .element "instrumentList" [] "" []]) ∧
    Drumkit.load_from exampleCodec (.element "drumkit_info" [] "" [
        .element "name" [] "" [], .element "author" [] "" [],
        .element "info" [] "" [], .element "license" [] "" [],
        .element "instrumentList" [] "" []]) = none :=
  ⟨rfl, rfl⟩

/-! ## Theorems: file-level save and package writer -/

/-- C5 (as amended): when a file exists at `dk_path`, `save_file` with
`overwrite = false` returns false and leaves the world (filesystem state and
call log) as it was; with `overwrite = true`, or when no file exists, and for
a drumkit that holds an instrument collection, it writes the document made of
the XML header and the encoded root, and returns what the write returned. -/
theorem save_file_overwrite_law {σ : Type} (env : Env σ) (self : Drumkit) (dk_path : String)
    (w : World σ) :
    (env.file_exists w.fs dk_path true = true →
      self.save_file env dk_path false w = (.ok false, w)) ∧
    (∀ (overwrite : Bool) (il : InstrumentList),
      (overwrite = true ∨ env.file_exists w.fs dk_path true = false) →
      self.instruments = some il →
      ∃ root doc,
        self.save_to env.codec (.element "drumkit_info"
          [("xmlns", env.XMLNS_BASE ++ "/drumkit"), ("xmlns:xsi", env.XMLNS_XSI)] "" []) =
          .ok root ∧
        doc = { nodes := [.instruction "xml" "version=\"1.0\" encoding=\"UTF-8\"", root] } ∧
        self.save_file env dk_path overwrite w =
          (.ok (env.doc_write w.fs dk_path doc).1,
           { fs := (env.doc_write w.fs dk_path doc).2,
             log := w.log ++ [Call.doc_write dk_path doc (env.doc_write w.fs dk_path doc).1] })) := by
  constructor
  · intro h
    simp [Drumkit.save_file, h]
  · intro overwrite il hcase hil
    have hguard : (env.file_exists w.fs dk_path true && !overwrite) = false := by
      rcases hcase with h | h <;> simp [h]
    refine ⟨env.codec.save_to il (((((XMLNode.element "drumkit_info"
        [("xmlns", env.XMLNS_BASE ++ "/drumkit"), ("xmlns:xsi", env.XMLNS_XSI)] ""
        []).write_string "name" self.name).write_string "author" self.author).write_string
        "info" self.info).write_string "license" self.license), _, ?_, rfl, ?_⟩
    · simp only [Drumkit.save_to, hil]
    · simp [Drumkit.save_file, hguard, Drumkit.save_to, hil, XMLNode.setAttribute,
        XMLDoc.appendChild, World.doc_write]

/-- C5, evaluated: with `drumkit.xml` present, saving without overwrite is
refused and nothing changes; saving with overwrite performs one write. -/
theorem save_file_overwrite_law_witness :
    exampleKit.save_file exampleEnv "/k/drumkit.xml" false
        { fs := ["/k/drumkit.xml"], log := [] } =
      (.ok false, { fs := ["/k/drumkit.xml"], log := [] }) ∧
    ∃ doc, exampleKit.save_file exampleEnv "/k/drumkit.xml" true
        { fs := ["/k/drumkit.xml"], log := [] } =
      (.ok true, { fs := ["/k/drumkit.xml", "/k/drumkit.xml"],
                   log := [Call.doc_write "/k/drumkit.xml" doc true] }) := by
  have h := save_file_overwrite_law exampleEnv exampleKit "/k/drumkit.xml"
    { fs := ["/k/drumkit.xml"], log := [] }
  refine ⟨h.1 (by decide), ?_⟩
  obtain ⟨root, doc, _, _, hs⟩ := h.2 true _ (Or.inl rfl) rfl
  exact ⟨doc, hs⟩

/-- C5 (the claim as stated fails): a drumkit as the constructor leaves it has
no instrument collection; `save_file` with `overwrite = true` then reaches
`__instruments->save_to( node )` through the null pointer, and no document is
written. -/
theorem save_file_null_collection :
    Drumkit.new.instruments = none ∧
    Drumkit.new.save_file exampleEnv "/k/drumkit.xml" true
        { fs := ["/k/drumkit.xml"], log := [] } =
      (.error Fault.nullDeref, { fs := ["/k/drumkit.xml"], log := [] }) :=
  ⟨rfl, rfl⟩

/-- C6: when a kit named `__name` already exists in the user kit area and
`overwrite` is false, `save` returns false and the world is unchanged: the
filesystem state is the same and no call (directory creation, document write,
sample copy) has been added to the log. -/
theorem save_refuses_existing {σ : Type} (env : Env σ) (self : Drumkit) (w : World σ)
    (h : env.drumkit_exists w.fs self.name = true) :
    self.save env false w = (.ok false, w) := by
  simp [Drumkit.save, h]

/-- C6, evaluated on the example kit when `Acoustic` is already installed. -/
theorem save_refuses_existing_witness :
    exampleEnv.drumkit_exists ["/home/u/.hydrogen/data/drumkits/Acoustic/drumkit.xml"]
        exampleKit.name = true ∧
    exampleKit.save exampleEnv false
        { fs := ["/home/u/.hydrogen/data/drumkits/Acoustic/drumkit.xml"], log := [] } =
      (.ok false,
        { fs := ["/home/u/.hydrogen/data/drumkits/Acoustic/drumkit.xml"], log := [] }) :=
  ⟨by decide, save_refuses_existing exampleEnv exampleKit _ (by decide)⟩

/-! ## Theorems: sample resource manager -/

theorem countLoads_append_load (log : List Call) (dir : String) (ok : Bool) :
    countLoads (log ++ [Call.load_samples dir ok]) = countLoads log + 1 := by
  induction log with
  | nil => rfl
  | cons c rest ih => cases c <;> simp [countLoads, ih]

theorem countUnloads_append_unload (log : List Call) (ok : Bool) :
    countUnloads (log ++ [Call.unload_samples ok]) = countUnloads log + 1 := by
  induction log with
  | nil => rfl
  | cons c rest ih => cases c <;> simp [countUnloads, ih]

theorem countLoads_append (a b : List Call) :
    countLoads (a ++ b) = countLoads a + countLoads b := by
  induction a with
  | nil => simp [countLoads]
  | cons c rest ih =>
    cases c <;> simp [countLoads, ih]
    omega

theorem countUnloads_append (a b : List Call) :
    countUnloads (a ++ b) = countUnloads a + countUnloads b := by
  induction a with
  | nil => simp [countUnloads]
  | cons c rest ih =>
    cases c <;> simp [countUnloads, ih]
    omega

/-- C7 (as amended): after a `load_samples` call that returned true, an
immediately following `load_samples` returns true and changes neither the
drumkit (collection, flag) nor the world, so the two calls invoke the bulk
load once when the kit was not loaded before and not at all when it was;
likewise for `unload_samples` and the bulk unload. After a `load_samples` call
that returned false the flag is still false, that call invoked the bulk load
once and the next call invokes it again; likewise after an `unload_samples`
call that returned false the flag is still true and the next call invokes the
bulk unload again. -/
theorem load_unload_samples_idempotent {σ : Type} (env : Env σ) (dk : Drumkit)
    (w : World σ) :
    ((dk.load_samples env w).1 = .ok true →
      (dk.load_samples env w).2.1.load_samples env (dk.load_samples env w).2.2 =
        (.ok true, (dk.load_samples env w).2.1, (dk.load_samples env w).2.2) ∧
      countLoads (dk.load_samples env w).2.2.log =
        countLoads w.log + (if dk.samples_loaded then 0 else 1)) ∧
    ((dk.unload_samples env w).1 = .ok true →
      (dk.unload_samples env w).2.1.unload_samples env (dk.unload_samples env w).2.2 =
        (.ok true, (dk.unload_samples env w).2.1, (dk.unload_samples env w).2.2) ∧
      countUnloads (dk.unload_samples env w).2.2.log =
        countUnloads w.log + (if dk.samples_loaded then 1 else 0)) ∧
    ((dk.load_samples env w).1 = .ok false →
      dk.samples_loaded = false ∧
      (dk.load_samples env w).2.1.samples_loaded = false ∧
      countLoads (dk.load_samples env w).2.2.log = countLoads w.log + 1 ∧
      countLoads ((dk.load_samples env w).2.1.load_samples env
        (dk.load_samples env w).2.2).2.2.log = countLoads w.log + 2) ∧
    ((dk.unload_samples env w).1 = .ok false →
      dk.samples_loaded = true ∧
      (dk.unload_samples env w).2.1.samples_loaded = true ∧
      countUnloads (dk.unload_samples env w).2.2.log = countUnloads w.log + 1 ∧
      countUnloads ((dk.unload_samples env w).2.1.unload_samples env
        (dk.unload_samples env w).2.2).2.2.log = countUnloads w.log + 2) := by
  refine ⟨?_, ?_, ?_, ?_⟩
  · intro hl
    unfold Drumkit.load_samples at hl ⊢
    cases hs : dk.samples_loaded
    · cases hi : dk.instruments with
      | none => simp [hs, hi] at hl
      | some il =>
        cases hr : (env.il_load_samples w.fs il
            (left dk.path (lastIndexOf dk.path '/'))).1
        · simp [hs, hi, hr] at hl
        · simp [hs, hi, hr, countLoads_append_load]
    · simp [hs]
  · intro hu
    unfold Drumkit.unload_samples at hu ⊢
    cases hs : dk.samples_loaded
    · simp [hs]
    · cases hi : dk.instruments with
      | none => simp [hs, hi] at hu
      | some il =>
        cases hr : (env.il_unload_samples il).1
        · simp [hs, hi, hr] at hu
        · simp [hs, hi, hr, countUnloads_append_unload]
  · intro hf
    unfold Drumkit.load_samples at hf ⊢
    cases hs : dk.samples_loaded
    · cases hi : dk.instruments with
      | none => simp [hs, hi] at hf
      | some il =>
        cases hr : (env.il_load_samples w.fs il
            (left dk.path (lastIndexOf dk.path '/'))).1
        · refine ⟨rfl, ?_, ?_, ?_⟩
          · simp [hs, hi, hr]
          · simp [hs, hi, hr, countLoads_append_load]
          · simp only [hs, hi, hr, Bool.false_eq_true, if_false]
            split <;> simp [countLoads_append, countLoads]
        · simp [hs, hi, hr] at hf
    · simp [hs] at hf
  · intro hf
    unfold Drumkit.unload_samples at hf ⊢
    cases hs : dk.samples_loaded
    · simp [hs] at hf
    · cases hi : dk.instruments with
      | none => simp [hs, hi] at hf
      | some il =>
        cases hr : (env.il_unload_samples il).1
        · refine ⟨rfl, ?_, ?_, ?_⟩
          · simp [hs, hi, hr]
          · simp [hs, hi, hr, countUnloads_append_unload]
          · simp only [hs, hi, hr, Bool.not_true, Bool.false_eq_true, if_false]
            split <;> simp [countUnloads_append, countUnloads]
        · simp [hs, hi, hr] at hf

/-- C7 as amended, evaluated. With `kick.wav` in place the example kit loads
on the first call and the second call changes nothing; the loaded kit unloads
on the first call and the second call changes nothing; with `kick.wav` missing
two calls make two bulk loads; with a bulk unload that fails two calls make
two bulk unloads. -/
theorem load_unload_samples_idempotent_witness :
    (countLoads (exampleKit.load_samples exampleEnv
        { fs := ["/usr/share/hydrogen/data/drumkits/Acoustic/kick.wav"], log := [] }).2.2.log =
      0 + 1) ∧
    (countUnloads ({ exampleKit with samples_loaded := true }.unload_samples exampleEnv
        { fs := [], log := [] }).2.2.log = 0 + 1) ∧
    (countLoads ((exampleKit.load_samples exampleEnv { fs := [], log := [] }).2.1.load_samples
        exampleEnv (exampleKit.load_samples exampleEnv { fs := [], log := [] }).2.2).2.2.log =
      0 + 2) ∧
    (countUnloads (({ exampleKit with samples_loaded := true }.unload_samples stuckUnloadEnv
        { fs := [], log := [] }).2.1.unload_samples stuckUnloadEnv
        ({ exampleKit with samples_loaded := true }.unload_samples stuckUnloadEnv
          { fs := [], log := [] }).2.2).2.2.log = 0 + 2) :=
  ⟨((load_unload_samples_idempotent exampleEnv exampleKit
      { fs := ["/usr/share/hydrogen/data/drumkits/Acoustic/kick.wav"], log := [] }).1 rfl).2,
   ((load_unload_samples_idempotent exampleEnv { exampleKit with samples_loaded := true }
      { fs := [], log := [] }).2.1 rfl).2,
   ((load_unload_samples_idempotent exampleEnv exampleKit
      { fs := [], log := [] }).2.2.1 rfl).2.2.2,
   ((load_unload_samples_idempotent stuckUnloadEnv { exampleKit with samples_loaded := true }
      { fs := [], log := [] }).2.2.2 rfl).2.2.2⟩

/-- C7 (the claim as stated fails): with `kick.wav` missing, the bulk load of
the example kit fails, the flag stays false, and a second `load_samples`
invokes the bulk load again and returns false as well: two bulk loads, not
one. -/
theorem load_samples_twice_after_failure :
    (exampleKit.load_samples exampleEnv { fs := [], log := [] }).1 = .ok false ∧
    ((exampleKit.load_samples exampleEnv { fs := [], log := [] }).2.1.load_samples exampleEnv
      (exampleKit.load_samples exampleEnv { fs := [], log := [] }).2.2).1 = .ok false ∧
    countLoads ((exampleKit.load_samples exampleEnv { fs := [], log := [] }).2.1.load_samples
      exampleEnv (exampleKit.load_samples exampleEnv { fs := [], log := [] }).2.2).2.2.log = 2 :=
  ⟨rfl, rfl, rfl⟩

/-! ## Theorems: sample copying -/

theorem attemptCopies_append {σ : Type} (env : Env σ) (a b : List (String × String))
    (w : World σ) :
    attemptCopies env (a ++ b) w =
      if !(attemptCopies env a w).1 then (false, (attemptCopies env a w).2)
      else attemptCopies env b (attemptCopies env a w).2 := by
  induction a generalizing w with
  | nil => simp [attemptCopies]
  | cons c cs ih =>
    simp only [List.cons_append, attemptCopies]
    cases h : (w.file_copy env c.1 c.2).1
    · simp
    · simp [ih]

theorem attemptCopies_fst {σ : Type} (env : Env σ) (cs : List (String × String))
    (w : World σ) : (attemptCopies env cs w).1 = allCopiesSucceed env cs w := by
  induction cs generalizing w with
  | nil => rfl
  | cons c cs ih =>
    simp only [attemptCopies, allCopiesSucceed]
    cases h : (w.file_copy env c.1 c.2).1
    · simp
    · simp [ih]

theorem attemptCopies_of_all {σ : Type} (env : Env σ) (cs : List (String × String))
    (w : World σ) (h : allCopiesSucceed env cs w = true) :
    attemptCopies env cs w = (true, runCopies env cs w) := by
  induction cs generalizing w with
  | nil => rfl
  | cons c cs ih =>
    simp only [allCopiesSucceed, Bool.and_eq_true] at h
    simp [attemptCopies, runCopies, h.1, ih _ h.2]

theorem attemptCopies_first_failure {σ : Type} (env : Env σ)
    (pre : List (String × String)) (c : String × String) (post : List (String × String))
    (w : World σ) (hpre : allCopiesSucceed env pre w = true)
    (hc : ((runCopies env pre w).file_copy env c.1 c.2).1 = false) :
    attemptCopies env (pre ++ c :: post) w =
      (false, ((runCopies env pre w).file_copy env c.1 c.2).2) := by
  rw [attemptCopies_append, attemptCopies_of_all env pre w hpre]
  simp [attemptCopies, hc]

theorem save_samples_layers_eq {σ : Type} (env : Env σ) (self : Drumkit) (dk_dir : String)
    (instrument : Instrument) (remaining n : Nat) (w : World σ) :
    save_samples_layers env self dk_dir instrument remaining n w =
      attemptCopies env
        (((List.range' n remaining).filterMap instrument.get_layer).map (fun layer =>
          (dirPart self.path ++ "/" ++ layer.sample.filename,
           dk_dir ++ "/" ++ layer.sample.filename))) w := by
  induction remaining generalizing n w with
  | zero => rfl
  | succ k ih =>
    rw [List.range'_succ, List.filterMap_cons]
    cases hl : instrument.get_layer n with
    | none => simp only [save_samples_layers, hl]; exact ih (n + 1) w
    | some layer =>
      simp only [save_samples_layers, hl, List.map_cons, attemptCopies, dirPart]
      rw [ih]
      rfl

theorem save_samples_instruments_eq {σ : Type} (env : Env σ) (self : Drumkit)
    (dk_dir : String) (instruments : List Instrument) (w : World σ) :
    save_samples_instruments env self dk_dir instruments w =
      attemptCopies env (sampleCopies env.MAX_LAYERS self.path dk_dir instruments) w := by
  induction instruments generalizing w with
  | nil => rfl
  | cons i rest ih =>
    simp only [save_samples_instruments, sampleCopies, List.flatMap_cons]
    rw [attemptCopies_append, save_samples_layers_eq, occupiedLayers, List.range_eq_range']
    simp only [ih, sampleCopies]

theorem save_samples_eq {σ : Type} (env : Env σ) (self : Drumkit) (il : InstrumentList)
    (dk_dir : String) (overwrite : Bool) (w : World σ) (hil : self.instruments = some il) :
    self.save_samples env dk_dir overwrite w =
      if !(w.mkdir env dk_dir).1 then (.ok false, (w.mkdir env dk_dir).2)
      else
        (.ok (attemptCopies env (sampleCopies env.MAX_LAYERS self.path dk_dir il)
            (w.mkdir env dk_dir).2).1,
         (attemptCopies env (sampleCopies env.MAX_LAYERS self.path dk_dir il)
            (w.mkdir env dk_dir).2).2) := by
  simp only [Drumkit.save_samples, hil, save_samples_instruments_eq]

/-- C9: `save_samples` attempts the copies of `sampleCopies` (instrument order,
then layers `0 .. MAX_LAYERS-1` skipping empty slots, each from
`<directory part of __path>/<filename>` to `<dk_dir>/<filename>`) in that
order. It returns true exactly when the directory creation and every copy
succeed, having then performed all of them; at the first failing copy it
returns false in the world that copy left, so no later copy is attempted and
no earlier one is undone; and `save` stops in the world `save_file` left,
copying nothing, when writing the metadata document fails. -/
theorem save_samples_copies {σ : Type} (env : Env σ) (self : Drumkit) (il : InstrumentList)
    (dk_dir : String) (overwrite : Bool) (w : World σ) (hil : self.instruments = some il) :
    ((self.save_samples env dk_dir overwrite w).1 = .ok true ↔
      ((w.mkdir env dk_dir).1 = true ∧
        allCopiesSucceed env (sampleCopies env.MAX_LAYERS self.path dk_dir il)
          (w.mkdir env dk_dir).2 = true)) ∧
    ((w.mkdir env dk_dir).1 = false →
      self.save_samples env dk_dir overwrite w = (.ok false, (w.mkdir env dk_dir).2)) ∧
    ((w.mkdir env dk_dir).1 = true →
      allCopiesSucceed env (sampleCopies env.MAX_LAYERS self.path dk_dir il)
        (w.mkdir env dk_dir).2 = true →
      self.save_samples env dk_dir overwrite w =
        (.ok true, runCopies env (sampleCopies env.MAX_LAYERS self.path dk_dir il)
          (w.mkdir env dk_dir).2)) ∧
    (∀ pre c post, sampleCopies env.MAX_LAYERS self.path dk_dir il = pre ++ c :: post →
      (w.mkdir env dk_dir).1 = true →
      allCopiesSucceed env pre (w.mkdir env dk_dir).2 = true →
      ((runCopies env pre (w.mkdir env dk_dir).2).file_copy env c.1 c.2).1 = false →
      self.save_samples env dk_dir overwrite w =
        (.ok false, ((runCopies env pre (w.mkdir env dk_dir).2).file_copy env c.1 c.2).2)) ∧
    ((env.drumkit_exists w.fs self.name && !overwrite) = false →
      (w.mkdir env (env.usr_drumkits_dir ++ "/" ++ self.name)).1 = true →
      (self.save_file env (env.drumkit_file (env.usr_drumkits_dir ++ "/" ++ self.name))
        overwrite (w.mkdir env (env.usr_drumkits_dir ++ "/" ++ self.name)).2).1 = .ok false →
      self.save env overwrite w =
        (.ok false,
          (self.save_file env (env.drumkit_file (env.usr_drumkits_dir ++ "/" ++ self.name))
            overwrite (w.mkdir env (env.usr_drumkits_dir ++ "/" ++ self.name)).2).2)) := by
  have heq := save_samples_eq env self il dk_dir overwrite w hil
  refine ⟨?_, ?_, ?_, ?_, ?_⟩
  · rw [heq]
    cases hm : (w.mkdir env dk_dir).1
    · simp
    · simp [attemptCopies_fst]
  · intro hm
    rw [heq]; simp [hm]
  · intro hm hall
    rw [heq, attemptCopies_of_all env _ _ hall]; simp [hm]
  · intro pre c post hsplit hm hpre hc
    rw [heq, hsplit, attemptCopies_first_failure env pre c post _ hpre hc]; simp [hm]
  · intro hguard hm hsf
    simp [Drumkit.save, hguard, hm, hsf]

/-- C9, evaluated: saving the samples of the example kit creates the
directory and copies `kick.wav` from the kit's own directory. -/
theorem save_samples_copies_witness :
    exampleKit.instruments = some [
      { name := "Kick",
        layers := [some { sample := { filename := "kick.wav", loaded := false } }] }] ∧
    exampleKit.save_samples exampleEnv "/home/u/.hydrogen/data/drumkits/Acoustic" true
        { fs := ["/usr/share/hydrogen/data/drumkits/Acoustic/kick.wav"], log := [] } =
      (.ok true,
        { fs := ["/usr/share/hydrogen/data/drumkits/Acoustic/kick.wav",
                 "/home/u/.hydrogen/data/drumkits/Acoustic",
                 "/home/u/.hydrogen/data/drumkits/Acoustic/kick.wav"],
          log := [Call.mkdir "/home/u/.hydrogen/data/drumkits/Acoustic" true,
                  Call.file_copy "/usr/share/hydrogen/data/drumkits/Acoustic/kick.wav"
                    "/home/u/.hydrogen/data/drumkits/Acoustic/kick.wav" true] }) :=
  ⟨rfl,
   ((save_samples_copies exampleEnv exampleKit _ "/home/u/.hydrogen/data/drumkits/Acoustic"
      true { fs := ["/usr/share/hydrogen/data/drumkits/Acoustic/kick.wav"], log := [] }
      rfl).2.2.1 rfl rfl).trans rfl⟩

/-! ## Theorems: archive installer -/

theorem splitSlash_ne_nil (cs : List Char) : splitSlash cs ≠ [] := by
  cases cs with
  | nil => simp [splitSlash]
  | cons c cs =>
    simp only [splitSlash]
    split
    · simp
    · split <;> simp

theorem splitSlash_append_slash (a b : List Char) :
    splitSlash (a ++ '/' :: b) = splitSlash a ++ splitSlash b := by
  induction a with
  | nil => simp [splitSlash]
  | cons c cs ih =>
    show splitSlash (c :: (cs ++ '/' :: b)) = splitSlash (c :: cs) ++ splitSlash b
    simp only [splitSlash]
    rw [ih]
    by_cases hc : c = '/'
    · simp [hc]
    · simp only [hc, if_false]
      cases hs : splitSlash cs with
      | nil => exact absurd hs (splitSlash_ne_nil cs)
      | cons h t => simp

theorem foldl_resolveStep_stays (comps : List (List Char)) (t s : List (List Char))
    (h : staysInsideFrom t.length comps = true) :
    comps.foldl resolveStep (t ++ s) = comps.foldl resolveStep t ++ s := by
  induction comps generalizing t with
  | nil => rfl
  | cons comp rest ih =>
    simp only [List.foldl_cons]
    unfold staysInsideFrom at h
    unfold resolveStep
    by_cases h1 : comp = [] ∨ comp = ['.']
    · simp only [h1, if_true] at h ⊢
      exact ih t h
    · simp only [h1, if_false] at h ⊢
      by_cases h2 : comp = ['.', '.']
      · simp only [h2, if_true] at h ⊢
        cases t with
        | nil => simp at h
        | cons x t2 =>
          simp only [List.length_cons] at h
          simpa using ih t2 h
      · simp only [h2, if_false] at h ⊢
        have := ih (comp :: t) (by simpa using h)
        simpa using this

theorem staysInsideFrom_of_no_dotdot (comps : List (List Char)) (d : Nat)
    (h : ['.', '.'] ∉ comps) : staysInsideFrom d comps = true := by
  induction comps generalizing d with
  | nil => rfl
  | cons comp rest ih =>
    have hrest : ['.', '.'] ∉ rest := fun hm => h (List.mem_cons_of_mem _ hm)
    have hcomp : comp ≠ ['.', '.'] := fun he => h (he ▸ List.mem_cons_self _ _)
    unfold staysInsideFrom
    by_cases h1 : comp = [] ∨ comp = ['.']
    · simp only [h1, if_true]; exact ih d hrest
    · simp only [h1, hcomp, if_false]; exact ih (d + 1) hrest

theorem liesUnder_of_staysInside (root p : String) (h : staysInside p = true) :
    liesUnder root (root ++ "/" ++ p) := by
  unfold liesUnder resolvePath
  have hd : (root ++ "/" ++ p).data = root.data ++ '/' :: p.data := by
    simp [String.data_append]
  rw [hd, splitSlash_append_slash, List.foldl_append]
  have := foldl_resolveStep_stays (splitSlash p.data) []
    ((splitSlash root.data).foldl resolveStep []) (by simpa [staysInside] using h)
  simp only [List.nil_append] at this
  rw [this, List.reverse_append]
  exact List.prefix_append _ _

theorem install_loop_stop (dk_dir : String) (e : ArchiveEntry) (rest : List ArchiveEntry)
    (h : e.header ≠ ARCHIVE_OK) : install_loop dk_dir (e :: rest) = (none, []) := by
  rw [install_loop]
  by_cases h1 : e.header = ARCHIVE_EOF
  · simp [h1]
  · simp [h1, h]

theorem install_loop_overflow (dk_dir : String) (e : ArchiveEntry) (rest : List ArchiveEntry)
    (h : e.header = ARCHIVE_OK) (hfit : ¬ (dk_dir ++ e.pathname).utf8ByteSize < 1024) :
    install_loop dk_dir (e :: rest) = (some Fault.bufferOverflow, []) := by
  have h1 : ARCHIVE_OK ≠ ARCHIVE_EOF := by decide
  rw [install_loop]
  simp [h, h1, strcpy, hfit]

theorem install_loop_continue (dk_dir : String) (e : ArchiveEntry) (rest : List ArchiveEntry)
    (h : e.header = ARCHIVE_OK) (hfit : (dk_dir ++ e.pathname).utf8ByteSize < 1024)
    (hx : e.extract = ARCHIVE_OK ∨ e.extract = ARCHIVE_WARN) :
    install_loop dk_dir (e :: rest) =
      ((install_loop dk_dir rest).1, (dk_dir ++ e.pathname) :: (install_loop dk_dir rest).2) := by
  have h1 : ARCHIVE_OK ≠ ARCHIVE_EOF := by decide
  have h2 : ARCHIVE_OK ≠ ARCHIVE_WARN := by decide
  rw [install_loop]
  rcases hx with hx | hx <;> simp [h, h1, h2, strcpy, hfit, hx]

theorem install_loop_abort (dk_dir : String) (e : ArchiveEntry) (rest : List ArchiveEntry)
    (h : e.header = ARCHIVE_OK) (hfit : (dk_dir ++ e.pathname).utf8ByteSize < 1024)
    (hx : e.extract ≠ ARCHIVE_OK) (hw : e.extract ≠ ARCHIVE_WARN) :
    install_loop dk_dir (e :: rest) = (none, [dk_dir ++ e.pathname]) := by
  have h1 : ARCHIVE_OK ≠ ARCHIVE_EOF := by decide
  rw [install_loop]
  simp [h, h1, strcpy, hfit, hx, hw]

theorem mem_install_loop (dk_dir : String) (entries : List ArchiveEntry) (path : String)
    (h : path ∈ (install_loop dk_dir entries).2) :
    ∃ e ∈ entries, path = dk_dir ++ e.pathname := by
  induction entries with
  | nil => simp [install_loop] at h
  | cons e rest ih =>
    by_cases h2 : e.header = ARCHIVE_OK
    · by_cases h3 : (dk_dir ++ e.pathname).utf8ByteSize < 1024
      · by_cases hx : e.extract = ARCHIVE_OK ∨ e.extract = ARCHIVE_WARN
        · rw [install_loop_continue dk_dir e rest h2 h3 hx] at h
          simp only [List.mem_cons] at h
          rcases h with h | h
          · exact ⟨e, List.mem_cons_self _ _, h⟩
          · obtain ⟨x, hx2, hp⟩ := ih h
            exact ⟨x, List.mem_cons_of_mem _ hx2, hp⟩
        · rw [install_loop_abort dk_dir e rest h2 h3 (fun hh => hx (Or.inl hh))
            (fun hh => hx (Or.inr hh))] at h
          simp only [List.mem_singleton] at h
          exact ⟨e, List.mem_cons_self _ _, h⟩
      · rw [install_loop_overflow dk_dir e rest h2 h3] at h
        simp at h
    · rw [install_loop_stop dk_dir e rest h2] at h
      simp at h

/-- C1 (as amended): every path `install` hands to the extractor is
`usr_drumkits_dir() + "/" + p` for the pathname `p` of an archive entry, and,
once `.` and `..` are resolved, it lies under the user kit root whenever `p`
never climbs above its starting directory, in particular for every `p` without
a `..` component, absolute ones included. -/
theorem install_path_confinement (root : String) (archive : Archive) (path : String)
    (h : path ∈ (Drumkit.install root archive).extracted) :
    ∃ e ∈ archive.entries, path = root ++ "/" ++ e.pathname ∧
      (staysInside e.pathname = true → liesUnder root path) ∧
      (['.', '.'] ∉ splitSlash e.pathname.data → liesUnder root path) := by
  unfold Drumkit.install at h
  by_cases ho : archive.open_status = 0
  · have hmem : path ∈ (install_loop (root ++ "/") archive.entries).2 := by
      simp only [ho, ne_eq, not_true_eq_false, if_false] at h
      cases hr : (install_loop (root ++ "/") archive.entries).1 <;> simpa [hr] using h
    obtain ⟨e, he, hp⟩ := mem_install_loop _ _ _ hmem
    exact ⟨e, he, hp, fun hs => hp ▸ liesUnder_of_staysInside root e.pathname hs,
      fun hn => hp ▸ liesUnder_of_staysInside root e.pathname
        (staysInsideFrom_of_no_dotdot _ 0 hn)⟩
  · simp [ho] at h

/-- C1 as amended, evaluated: an entry stored under the absolute pathname
`/Acoustic/kick.wav` is handed to the extractor under the user kit root. -/
theorem install_path_confinement_witness :
    "/home/u/.hydrogen/data/drumkits//Acoustic/kick.wav" ∈
      (Drumkit.install "/home/u/.hydrogen/data/drumkits"
        { open_status := 0,
          entries := [{ header := ARCHIVE_OK, pathname := "/Acoustic/kick.wav", extract := ARCHIVE_OK }] }).extracted ∧
    liesUnder "/home/u/.hydrogen/data/drumkits"
      "/home/u/.hydrogen/data/drumkits//Acoustic/kick.wav" := by
  obtain ⟨e, he, _, hl, _⟩ := install_path_confinement "/home/u/.hydrogen/data/drumkits"
    { open_status := 0,
      entries := [{ header := ARCHIVE_OK, pathname := "/Acoustic/kick.wav", extract := ARCHIVE_OK }] }
    "/home/u/.hydrogen/data/drumkits//Acoustic/kick.wav" (by decide)
  simp only [List.mem_singleton] at he
  subst he
  exact ⟨by decide, hl (by decide)⟩

/-- C1 (the claim as stated fails): for the entry `../../etc/passthrough`,
`install` hands the extractor the path
`/home/u/.hydrogen/data/drumkits/../../etc/passthrough`, which resolves to
`/home/u/.hydrogen/etc/passthrough`, outside the user kit root. -/
theorem install_escapes_root :
    (Drumkit.install "/home/u/.hydrogen/data/drumkits"
      { open_status := 0,
        entries := [{ header := ARCHIVE_OK, pathname := "../../etc/passthrough", extract := ARCHIVE_OK }] }).extracted =
      ["/home/u/.hydrogen/data/drumkits/../../etc/passthrough"] ∧
    (resolvePath "/home/u/.hydrogen/data/drumkits/../../etc/passthrough").map String.mk =
      ["home", "u", ".hydrogen", "etc", "passthrough"] ∧
    (resolvePath "/home/u/.hydrogen/data/drumkits").map String.mk =
      ["home", "u", ".hydrogen", "data", "drumkits"] ∧
    ¬ liesUnder "/home/u/.hydrogen/data/drumkits"
      "/home/u/.hydrogen/data/drumkits/../../etc/passthrough" := by
  refine ⟨by decide, by decide, by decide, ?_⟩
  unfold liesUnder
  decide

end H2Core
